import Mathlib

/-!
# Movie REST API (`src/app.js`)

A shallow embedding of the request handlers of `src/app.js` and of the CORS
origin callback, followed by theorems about them.

Modelling conventions.

* The global array `movies` is a `List Movie`; a handler is a pure function
  from the store before the request to the store after it and the response.
* A record is a JavaScript object; its properties are the fields of `Movie`.
  An optional property is an `Option`.
* JSON numbers are finite and are only ever carried around by the handlers,
  never computed with; they are rationals (`year` and `duration`, which the
  data model makes integers, are `Int`).
* `req.body` is the value `express.json()` parsed, a `Json`; so is the value
  `JSON.parse(result.error.message)` of a failed validation.
* `validateMovie` and `validatePartialMovie` come from `./schemas/movies`,
  which is not part of `src/`; the handlers take them as parameters, as they
  take `String.prototype.toLowerCase`.
* `res.json(x)` is recorded as the value `x` handed to it, with the status set
  before (200 when none is set).
* A handler that throws ends in the error middleware of lines 161-164, which
  answers 500 with the text `Something broke!`.
-/

namespace RestApi

/-! ## Data model -/

/-- A parsed JSON value. -/
inductive Json where
  | null
  | bool (b : Bool)
  | num (q : Rat)
  | str (s : String)
  | arr (items : List Json)
  | obj (props : List (String × Json))

/-- The value of the `id` property of a stored record: a string for seeded
records, or the function object `crypto.randomUUID` (line 84 stores the function
itself, it does not call it). -/
inductive Ident where
  | str (s : String)
  | randomUUID
  deriving DecidableEq, Repr

/-- `movie.id === id` for a path parameter `id`, which is always a string:
strict equality of a function object and a string is `false`. -/
def Ident.strictEq : Ident → String → Bool
  | .str s, id => s == id
  | .randomUUID, _ => false

/-- `typeof v === 'string'` for an `id` value. -/
def Ident.isString : Ident → Bool
  | .str _ => true
  | .randomUUID => false

/-- `result.data` of a successful `validateMovie`: the recognised fields only. -/
structure MovieData where
  title : String
  year : Int
  director : String
  duration : Int
  rate : Option Rat
  poster : Option String
  genre : List String
  deriving DecidableEq, Repr

/-- `result.data` of a successful `validatePartialMovie`: any subset of the
recognised fields; `none` is an absent property. -/
structure PartialMovieData where
  title : Option String := none
  year : Option Int := none
  director : Option String := none
  duration : Option Int := none
  rate : Option Rat := none
  poster : Option String := none
  genre : Option (List String) := none
  deriving DecidableEq, Repr

/-- A stored record. -/
structure Movie where
  id : Ident
  title : String
  year : Int
  director : String
  duration : Int
  rate : Option Rat
  poster : Option String
  genre : List String
  deriving DecidableEq, Repr

/-- The recognised fields of a record, that is, the record without its `id`. -/
def Movie.data (m : Movie) : MovieData :=
  { title := m.title, year := m.year, director := m.director, duration := m.duration,
    rate := m.rate, poster := m.poster, genre := m.genre }

/-- Value handed to `res.json`: a record, an array of records, `{ message }` or
`{ error }`; `text` is a plain body handed to `res.send`. -/
inductive Payload where
  | movie (m : Movie)
  | movieList (ms : List Movie)
  | message (text : String)
  | error (e : Json)
  | text (body : String)

/-- Status code and body of a response. -/
structure Response where
  status : Nat
  json : Payload

/-- Result of `validateMovie`: `{ error }` or `{ data }`. -/
abbrev Validator := Json → Except Json MovieData

/-- Result of `validatePartialMovie`: `{ error }` or `{ data }`. -/
abbrev PartialValidator := Json → Except Json PartialMovieData

/-! ## JavaScript built-ins used by the handlers -/

/-- Truthiness of a value that is `undefined` or a string: only a non-empty
string is truthy. -/
def truthy : Option String → Bool
  | none => false
  | some s => s != ""

/-- A value of `req.query`: a string, or the array or object that the query
parser builds for a repeated or bracketed parameter (`?title=a&title=b`,
`?title[x]=a`). -/
inductive QueryValue where
  | str (s : String)
  | structured
  deriving DecidableEq, Repr

/-- Truthiness of `req.query.x`: `undefined` and the empty string are falsy, an
array or an object is truthy. -/
def truthyQuery : Option QueryValue → Bool
  | none => false
  | some (.str s) => s != ""
  | some .structured => true

/-- An exception thrown while a handler runs. -/
inductive JsError where
  | typeError (message : String)
  deriving DecidableEq, Repr

/-- The call `v.toLowerCase()` on a value of `req.query`: only a string has the
method, on anything else the call throws a `TypeError`. -/
def callToLowerCase (toLowerCase : String → String) (name : String) :
    Option QueryValue → Except JsError String
  | some (.str s) => .ok (toLowerCase s)
  | _ => .error (.typeError (name ++ ".toLowerCase is not a function"))

/-- `xs.some(p)` for a callback that may throw: the callback runs on the
elements in order until it answers `true` or throws. -/
def someThrowing {α : Type} (p : α → Except JsError Bool) : List α → Except JsError Bool
  | [] => .ok false
  | x :: xs =>
    match p x with
    | .error e => .error e
    | .ok true => .ok true
    | .ok false => someThrowing p xs

/-- `xs.filter(p)` for a callback that may throw: the callback runs on every
element in order, and the first exception ends the call. -/
def filterThrowing {α : Type} (p : α → Except JsError Bool) :
    List α → Except JsError (List α)
  | [] => .ok []
  | x :: xs =>
    match p x with
    | .error e => .error e
    | .ok keep =>
      match filterThrowing p xs with
      | .error e => .error e
      | .ok rest => .ok (if keep then x :: rest else rest)

/-- Truthiness of an array object: every object is truthy, the empty array
included. -/
def truthyArray {α : Type} (_ : List α) : Bool := true

/-- `s.includes(t)`: `t` occurs in `s` as a contiguous run of characters. -/
def includes (s t : String) : Bool :=
  s.data.tails.any (fun suffix => t.data.isPrefixOf suffix)

/-- `xs.findIndex(p)`, counting from `k`: the index of the first element
satisfying `p`, or `-1`. -/
def findIndexFrom {α : Type} (p : α → Bool) : List α → Nat → Int
  | [], _ => -1
  | x :: xs, k => if p x then (k : Int) else findIndexFrom p xs (k + 1)

/-- `xs.findIndex(p)`. -/
def findIndex {α : Type} (p : α → Bool) (xs : List α) : Int :=
  findIndexFrom p xs 0

/-- `xs.splice(start, deleteCount)`, the array it leaves behind: a negative
`start` counts from the end, and both arguments are clamped to the array. -/
def splice {α : Type} (xs : List α) (start : Int) (deleteCount : Nat) : List α :=
  let len : Int := xs.length
  let from_ : Nat := (if start < 0 then max (len + start) 0 else min start len).toNat
  xs.take from_ ++ xs.drop (from_ + min deleteCount (xs.length - from_))

/-- `xs[i] = v` for an index inside the array. -/
def assignIndex {α : Type} (xs : List α) (i : Int) (v : α) : List α :=
  xs.set i.toNat v

/-! ## CORS origin callback (lines 13-33) -/

/-- Outcome of the callback: `callback(null, true)` or `callback(new Error(..))`. -/
inductive CorsDecision where
  | allow
  | reject (message : String)
  deriving DecidableEq, Repr

def ACCEPTED_ORIGINS : List String :=
  [ "http://localhost:8080",
    "http://localhost:3000",
    "https://movies.com",
    "https://midu.dev" ]

/-- `ACCEPTED_ORIGINS.includes(origin)`; `undefined` is not an element. -/
def originAccepted : Option String → Bool
  | none => false
  | some o => ACCEPTED_ORIGINS.contains o

/-- The `origin` option passed to `cors`; the argument is `req.headers.origin`,
`none` when the header is absent. -/
def corsOrigin (origin : Option String) : CorsDecision :=
  if originAccepted origin then .allow
  else if !truthy origin then .allow
  else .reject "Not allowed by CORS..."

/-! ## Request handlers -/

/-- The error middleware of lines 161-164, which Express runs when a handler
throws. -/
def errorMiddleware : Except JsError Response → Response
  | .ok response => response
  | .error _ => ⟨500, .text "Something broke!"⟩

/-- The filter callback of lines 58-60. -/
def titleMatches (toLowerCase : String → String) (title : Option QueryValue)
    (movie : Movie) : Except JsError Bool :=
  match callToLowerCase toLowerCase "title" title with
  | .ok t => .ok (includes (toLowerCase movie.title) t)
  | .error e => .error e

/-- The filter callback of lines 65-67: `movie.genre.some(..)`, whose callback
compares the lower-cased element with the lower-cased parameter. -/
def genreMatches (toLowerCase : String → String) (genre : Option QueryValue)
    (movie : Movie) : Except JsError Bool :=
  someThrowing (fun g =>
    match callToLowerCase toLowerCase "genre" genre with
    | .ok x => .ok (toLowerCase g == x)
    | .error e => .error e) movie.genre

/-- Lines 64-71 of `GET /movies`: the genre filter, then the full list. -/
def genreBranch (toLowerCase : String → String) (movies : List Movie)
    (genre : Option QueryValue) : Except JsError Response :=
  if truthyQuery genre then
    match filterThrowing (genreMatches toLowerCase genre) movies with
    | .error e => .error e
    | .ok filteredMovies =>
      if truthyArray filteredMovies then .ok ⟨200, .movieList filteredMovies⟩
      else .ok ⟨200, .movieList movies⟩
  else .ok ⟨200, .movieList movies⟩

/-- The body of the handler of `GET /movies` (lines 52-72); `title` and `genre`
are `req.query.title` and `req.query.genre`, `none` when the parameter is
absent. The fall-through of lines 61 and 68 to the code below is kept, although
an array is always truthy. -/
def getMoviesHandler (toLowerCase : String → String) (movies : List Movie)
    (title genre : Option QueryValue) : Except JsError Response :=
  if truthyQuery title then
    match filterThrowing (titleMatches toLowerCase title) movies with
    | .error e => .error e
    | .ok filteredMovies =>
      if truthyArray filteredMovies then .ok ⟨200, .movieList filteredMovies⟩
      else genreBranch toLowerCase movies genre
  else genreBranch toLowerCase movies genre

/-- `GET /movies`: the handler, and the error middleware when it throws. -/
def getMovies (toLowerCase : String → String) (movies : List Movie)
    (title genre : Option QueryValue) : Response :=
  errorMiddleware (getMoviesHandler toLowerCase movies title genre)

/-- The object literal `{ id: v, ...data }` of lines 83-86: the property `id`
followed by the properties of `result.data`, none of which is named `id`. -/
def withId (v : Ident) (data : MovieData) : Movie :=
  { id := v, title := data.title, year := data.year, director := data.director,
    duration := data.duration, rate := data.rate, poster := data.poster,
    genre := data.genre }

/-- `POST /movies` (lines 75-91); line 84 reads `id: crypto.randomUUID`, the
function and not a call of it. -/
def postMovies (validateMovie : Validator) (movies : List Movie) (body : Json) :
    List Movie × Response :=
  match validateMovie body with
  | .error e => (movies, ⟨422, .error e⟩)
  | .ok data =>
    let newMovie : Movie := withId .randomUUID data
    (movies ++ [newMovie], ⟨201, .movie newMovie⟩)

/-- `GET /movies/:id` (lines 106-113). -/
def getMovieById (movies : List Movie) (id : String) : Response :=
  match movies.find? (fun movie => movie.id.strictEq id) with
  | some movie => ⟨200, .movie movie⟩
  | none => ⟨404, .message "Movie not found..."⟩

/-- The object spread of lines 129-132: the properties of the stored record,
overridden by those present in `result.data`. -/
def spread (movie : Movie) (data : PartialMovieData) : Movie :=
  { id := movie.id
    title := data.title.getD movie.title
    year := data.year.getD movie.year
    director := data.director.getD movie.director
    duration := data.duration.getD movie.duration
    rate := data.rate.orElse (fun _ => movie.rate)
    poster := data.poster.orElse (fun _ => movie.poster)
    genre := data.genre.getD movie.genre }

/-- `PATCH /movies/:id` (lines 115-137). An index returned by `findIndex` is
inside the array, so the last branch is never taken. -/
def patchMovieById (validatePartialMovie : PartialValidator) (movies : List Movie)
    (id : String) (body : Json) : List Movie × Response :=
  match validatePartialMovie body with
  | .error e => (movies, ⟨400, .error e⟩)
  | .ok data =>
    let movieIndex := findIndex (fun movie => movie.id.strictEq id) movies
    if movieIndex = -1 then (movies, ⟨404, .message "Movie not found..."⟩)
    else
      match movies[movieIndex.toNat]? with
      | some movie =>
        let updateMovie := spread movie data
        (assignIndex movies movieIndex updateMovie, ⟨200, .movie updateMovie⟩)
      | none => (movies, ⟨500, .message "Something broke!"⟩)

/-- `DELETE /movies/:id` (lines 140-152). -/
def deleteMovieById (movies : List Movie) (id : String) : List Movie × Response :=
  let movieIndex := findIndex (fun movie => movie.id.strictEq id) movies
  if movieIndex = -1 then (movies, ⟨404, .message "Movie not found"⟩)
  else (splice movies movieIndex 1, ⟨204, .message "Movie deleted"⟩)

/-! ## Instances for evaluating the handlers on concrete requests

`asciiLower` stands in for `toLowerCase`, and the validators of
`./schemas/movies` are modelled from the description of the schema in the
specification; the definitions from `Schema` to `validateMovie` belong to that
model. The theorems about the handlers hold for every validator. -/

/-- Lower-casing of the ASCII letters, an instance of `toLowerCase`. -/
def asciiLower (s : String) : String :=
  ⟨s.data.map Char.toLower⟩

/-- Configuration of the movie schema: the ranges, the default and the
vocabulary that the schema fixes. -/
structure Schema where
  minYear : Int
  maxYear : Int
  minRate : Rat
  maxRate : Rat
  defaultRate : Rat
  isUrl : String → Bool
  genres : List String

/-- `body[name]` of a parsed object; of two properties of the same name
`JSON.parse` keeps the later. -/
def getProp (props : List (String × Json)) (name : String) : Option Json :=
  (props.reverse.find? (fun kv => kv.1 == name)).map (fun kv => kv.2)

def asString : Json → Option String
  | .str s => some s
  | _ => none

def asNumber : Json → Option Rat
  | .num q => some q
  | _ => none

def asInteger : Json → Option Int
  | .num q => if q.den = 1 then some q.num else none
  | _ => none

def allStrings : List Json → Option (List String)
  | [] => some []
  | .str s :: rest => (allStrings rest).map (fun ss => s :: ss)
  | _ :: _ => none

def asStrings : Json → Option (List String)
  | .arr items => allStrings items
  | _ => none

/-- One field-level error description: field path, expected constraint,
received value. -/
def issue (path expected : String) (received : Json) : Json :=
  .obj [("path", .str path), ("expected", .str expected), ("received", received)]

/-- Error description of a required field that is absent. -/
def issueMissing (path : String) : Json :=
  .obj [("path", .str path), ("expected", .str "required")]

/-- Reads one field of the body: absent, well-formed, or an error. -/
def readField {α : Type} (props : List (String × Json)) (name expected : String)
    (check : Json → Option α) : Option α × List Json :=
  match getProp props name with
  | none => (none, [])
  | some v =>
    match check v with
    | some a => (some a, [])
    | none => (none, [issue name expected v])

def recognisedFields : List String :=
  ["title", "year", "director", "duration", "rate", "poster", "genre"]

/-- Errors for the fields of the body that the schema does not know. -/
def unrecognised (props : List (String × Json)) : List Json :=
  props.filterMap (fun kv =>
    if recognisedFields.contains kv.1 then none else some (issue kv.1 "no such field" kv.2))

/-- Errors for an absent required field. -/
def required (props : List (String × Json)) (name : String) : List Json :=
  match getProp props name with
  | none => [issueMissing name]
  | some _ => []

def checkTitle (v : Json) : Option String :=
  (asString v).filter (fun s => s != "")

def checkYear (cfg : Schema) (v : Json) : Option Int :=
  (asInteger v).filter (fun y => cfg.minYear ≤ y && y ≤ cfg.maxYear)

def checkDuration (v : Json) : Option Int :=
  (asInteger v).filter (fun d => 0 < d)

def checkRate (cfg : Schema) (v : Json) : Option Rat :=
  (asNumber v).filter (fun r => cfg.minRate ≤ r && r ≤ cfg.maxRate)

def checkPoster (cfg : Schema) (v : Json) : Option String :=
  (asString v).filter cfg.isUrl

def checkGenre (cfg : Schema) (v : Json) : Option (List String) :=
  (asStrings v).filter (fun gs => !gs.isEmpty && gs.all (fun g => cfg.genres.contains g))

/-- Modelled from the spec: `validatePartialMovie` of `./schemas/movies`, which
is not in `src/`. The per-field rules of the data model, no field required,
unrecognised fields rejected; the empty object yields the empty result. -/
def validatePartialMovie (cfg : Schema) : PartialValidator := fun body =>
  match body with
  | .obj props =>
    let title := readField props "title" "non-empty string" checkTitle
    let year := readField props "year" "integer in range" (checkYear cfg)
    let director := readField props "director" "string" asString
    let duration := readField props "duration" "positive integer" checkDuration
    let rate := readField props "rate" "number in range" (checkRate cfg)
    let poster := readField props "poster" "url" (checkPoster cfg)
    let genre := readField props "genre" "non-empty array of genres" (checkGenre cfg)
    let issues := title.2 ++ year.2 ++ director.2 ++ duration.2 ++ rate.2 ++ poster.2
      ++ genre.2 ++ unrecognised props
    if issues.isEmpty then
      .ok { title := title.1, year := year.1, director := director.1,
            duration := duration.1, rate := rate.1, poster := poster.1, genre := genre.1 }
    else .error (.arr issues)
  | other => .error (.arr [issue "" "object" other])

/-- Modelled from the spec: `validateMovie` of `./schemas/movies`, which is not
in `src/`. The per-field rules of the data model; title, year, director,
duration and genre are required, rate has a default, poster is optional,
unrecognised fields are rejected. -/
def validateMovie (cfg : Schema) : Validator := fun body =>
  match body with
  | .obj props =>
    let title := readField props "title" "non-empty string" checkTitle
    let year := readField props "year" "integer in range" (checkYear cfg)
    let director := readField props "director" "string" asString
    let duration := readField props "duration" "positive integer" checkDuration
    let rate := readField props "rate" "number in range" (checkRate cfg)
    let poster := readField props "poster" "url" (checkPoster cfg)
    let genre := readField props "genre" "non-empty array of genres" (checkGenre cfg)
    let issues := title.2 ++ year.2 ++ director.2 ++ duration.2 ++ rate.2 ++ poster.2
      ++ genre.2 ++ unrecognised props ++ required props "title" ++ required props "year"
      ++ required props "director" ++ required props "duration" ++ required props "genre"
    match issues, title.1, year.1, director.1, duration.1, genre.1 with
    | [], some t, some y, some d, some m, some g =>
      .ok { title := t, year := y, director := d, duration := m,
            rate := some (rate.1.getD cfg.defaultRate), poster := poster.1, genre := g }
    | _, _, _, _, _, _ => .error (.arr issues)
  | other => .error (.arr [issue "" "object" other])

/-- An example configuration. -/
def exampleSchema : Schema :=
  { minYear := 1888, maxYear := 2100, minRate := 0, maxRate := 10, defaultRate := 5,
    isUrl := fun s => "http://".data.isPrefixOf s.data || "https://".data.isPrefixOf s.data,
    genres := ["Action", "Comedy", "Drama", "Fantasy", "Horror", "Thriller", "Sci-Fi",
      "Crime", "Animation", "Biography", "Adventure"] }

/-- A complete body. -/
def matrixBody : Json :=
  .obj [("title", .str "The Matrix"), ("year", .num 1999), ("director", .str "Lana Wachowski"),
    ("duration", .num 136), ("poster", .str "https://img.example/matrix.jpg"),
    ("genre", .arr [.str "Action", .str "Sci-Fi"])]

/-- The data of `matrixBody`. -/
def matrixData : MovieData :=
  { title := "The Matrix", year := 1999, director := "Lana Wachowski", duration := 136,
    rate := some 5, poster := some "https://img.example/matrix.jpg",
    genre := ["Action", "Sci-Fi"] }

/-- The body `matrixBody` without its title. -/
def untitledBody : Json :=
  .obj [("year", .num 1999), ("director", .str "Lana Wachowski"),
    ("duration", .num 136), ("genre", .arr [.str "Action", .str "Sci-Fi"])]

/-- A seeded record. -/
def matrix : Movie :=
  { id := .str "m1", title := "The Matrix", year := 1999, director := "Lana Wachowski",
    duration := 136, rate := some 8.7, poster := none, genre := ["Action", "Sci-Fi"] }

/-- A seeded record. -/
def inception : Movie :=
  { id := .str "m2", title := "Inception", year := 2010, director := "Christopher Nolan",
    duration := 148, rate := some 8.8, poster := none, genre := ["Action", "Adventure"] }

/-- A store of two records with distinct identifiers. -/
def seedStore : List Movie := [matrix, inception]

/-- A body that partial validation rejects: the year is not a number. -/
def badYearBody : Json := .obj [("year", .str "abc")]

/-- A field of a merged record: the value of the patch when the patch has the
field, the value of the old record when it has not. -/
def mergedField {α : Type} (patch : Option α) (old new : α) : Prop :=
  (∀ v, patch = some v → new = v) ∧ (patch = none → new = old)

/-- The same for a property that a record may lack. -/
def mergedOptionalField {α : Type} (patch old new : Option α) : Prop :=
  (∀ v, patch = some v → new = some v) ∧ (patch = none → new = old)

/-! ## Lemmas on the array built-ins -/

theorem findIndexFrom_of_none {α : Type} (p : α → Bool) (xs : List α) (k : Nat)
    (h : ∀ x ∈ xs, p x = false) : findIndexFrom p xs k = -1 := by
  induction xs generalizing k with
  | nil => rfl
  | cons x xs ih =>
    have hx : p x = false := h x (List.mem_cons_self x xs)
    simp only [findIndexFrom, hx, Bool.false_eq_true, if_false]
    exact ih (k + 1) (fun y hy => h y (List.mem_cons_of_mem x hy))

theorem findIndexFrom_of_split {α : Type} (p : α → Bool) (before : List α) (m : α)
    (after : List α) (k : Nat) (hbefore : ∀ x ∈ before, p x = false) (hm : p m = true) :
    findIndexFrom p (before ++ m :: after) k = ((k + before.length : Nat) : Int) := by
  induction before generalizing k with
  | nil => simp [findIndexFrom, hm]
  | cons x xs ih =>
    have hx : p x = false := hbefore x (List.mem_cons_self x xs)
    have hstep : findIndexFrom p (x :: xs ++ m :: after) k
        = findIndexFrom p (xs ++ m :: after) (k + 1) := by
      show findIndexFrom p (x :: (xs ++ m :: after)) k = _
      simp only [findIndexFrom, hx, Bool.false_eq_true, if_false]
    rw [hstep, ih (k + 1) (fun y hy => hbefore y (List.mem_cons_of_mem x hy))]
    simp only [List.length_cons]
    congr 1
    omega

theorem findIndex_of_none {α : Type} (p : α → Bool) (xs : List α)
    (h : ∀ x ∈ xs, p x = false) : findIndex p xs = -1 :=
  findIndexFrom_of_none p xs 0 h

theorem findIndex_of_split {α : Type} (p : α → Bool) (before : List α) (m : α)
    (after : List α) (hbefore : ∀ x ∈ before, p x = false) (hm : p m = true) :
    findIndex p (before ++ m :: after) = (before.length : Int) := by
  unfold findIndex
  rw [findIndexFrom_of_split p before m after 0 hbefore hm]
  simp

/-- A list with an element satisfying `p` splits at the first such element. -/
theorem exists_first_split {α : Type} (p : α → Bool) (xs : List α)
    (h : ∃ x ∈ xs, p x = true) :
    ∃ before m after, xs = before ++ m :: after ∧ (∀ x ∈ before, p x = false) ∧ p m = true := by
  induction xs with
  | nil => obtain ⟨x, hx, _⟩ := h; cases hx
  | cons y ys ih =>
    by_cases hy : p y = true
    · exact ⟨[], y, ys, rfl, by simp, hy⟩
    · have hy0 : p y = false := by simpa using hy
      obtain ⟨x, hx, hpx⟩ := h
      have hx2 : x ∈ ys := by
        rcases List.mem_cons.mp hx with rfl | hmem
        · rw [hpx] at hy0; cases hy0
        · exact hmem
      obtain ⟨before, m, after, hsplit, hbefore, hm⟩ := ih ⟨x, hx2, hpx⟩
      refine ⟨y :: before, m, after, by rw [hsplit]; rfl, ?_, hm⟩
      intro z hz
      rcases List.mem_cons.mp hz with rfl | hmem
      · exact hy0
      · exact hbefore z hmem

theorem splice_of_split {α : Type} (before : List α) (m : α) (after : List α) :
    splice (before ++ m :: after) (before.length : Int) 1 = before ++ after := by
  have hlt : ¬ ((before.length : Int) < 0) := by omega
  have hmin : min (before.length : Int) ((before ++ m :: after).length : Int)
      = (before.length : Int) := by
    simp only [List.length_append, List.length_cons]
    omega
  simp only [splice, hlt, if_false, hmin, Int.toNat_ofNat]
  have h1 : min 1 ((before ++ m :: after).length - before.length) = 1 := by
    simp only [List.length_append, List.length_cons]
    omega
  rw [h1, List.take_left, List.drop_append]
  rfl

theorem assignIndex_of_split {α : Type} (before : List α) (m v : α) (after : List α) :
    assignIndex (before ++ m :: after) (before.length : Int) v = before ++ v :: after := by
  simp [assignIndex]

theorem getElem?_of_split {α : Type} (before : List α) (m : α) (after : List α) :
    (before ++ m :: after)[before.length]? = some m := by
  rw [List.getElem?_append_right (Nat.le_refl _)]
  simp

theorem find?_of_split {α : Type} (p : α → Bool) (before : List α) (m : α) (after : List α)
    (hbefore : ∀ x ∈ before, p x = false) (hm : p m = true) :
    (before ++ m :: after).find? p = some m := by
  induction before with
  | nil => simp [hm]
  | cons x xs ih =>
    have hx : p x = false := hbefore x (List.mem_cons_self x xs)
    simp only [List.cons_append, List.find?_cons, hx]
    exact ih (fun y hy => hbefore y (List.mem_cons_of_mem x hy))

theorem find?_of_none {α : Type} (p : α → Bool) (xs : List α)
    (h : ∀ x ∈ xs, p x = false) : xs.find? p = none := by
  rw [List.find?_eq_none]
  intro x hx
  simp [h x hx]

/-- The built-in `includes` decides whether `t` is a substring of `s`. -/
theorem includes_iff_substring (s t : String) : includes s t = true ↔ t.data <:+: s.data := by
  unfold includes
  rw [List.any_eq_true, List.infix_iff_prefix_suffix]
  constructor
  · rintro ⟨suffix, hmem, hpre⟩
    exact ⟨suffix, List.isPrefixOf_iff_prefix.mp hpre, (List.mem_tails _ _).mp hmem⟩
  · rintro ⟨suffix, hpre, hsuf⟩
    exact ⟨suffix, (List.mem_tails _ _).mpr hsuf, List.isPrefixOf_iff_prefix.mpr hpre⟩

theorem includes_eq_decide (s t : String) : includes s t = decide (t.data <:+: s.data) := by
  rw [Bool.eq_iff_iff, includes_iff_substring, decide_eq_true_iff]

theorem includes_empty (s : String) : includes s "" = true := by
  rw [includes_iff_substring]
  exact List.nil_infix

/-! ## The handlers on a store split at the first record of an id -/

theorem getMovieById_of_split (before : List Movie) (m : Movie) (after : List Movie)
    (id : String) (hbefore : ∀ x ∈ before, x.id.strictEq id = false)
    (hm : m.id.strictEq id = true) :
    getMovieById (before ++ m :: after) id = ⟨200, .movie m⟩ := by
  unfold getMovieById
  rw [find?_of_split (fun movie => movie.id.strictEq id) before m after hbefore hm]

theorem getMovieById_of_none (movies : List Movie) (id : String)
    (h : ∀ x ∈ movies, x.id.strictEq id = false) :
    getMovieById movies id = ⟨404, .message "Movie not found..."⟩ := by
  unfold getMovieById
  rw [find?_of_none (fun movie => movie.id.strictEq id) movies h]

theorem deleteMovieById_of_split (before : List Movie) (m : Movie) (after : List Movie)
    (id : String) (hbefore : ∀ x ∈ before, x.id.strictEq id = false)
    (hm : m.id.strictEq id = true) :
    deleteMovieById (before ++ m :: after) id
      = (before ++ after, ⟨204, .message "Movie deleted"⟩) := by
  have hidx := findIndex_of_split (fun movie => movie.id.strictEq id) before m after hbefore hm
  have hne : ¬ ((before.length : Int) = -1) := by omega
  simp only [deleteMovieById, hidx, hne, if_false, splice_of_split]

theorem deleteMovieById_of_none (movies : List Movie) (id : String)
    (h : ∀ x ∈ movies, x.id.strictEq id = false) :
    deleteMovieById movies id = (movies, ⟨404, .message "Movie not found"⟩) := by
  have hidx := findIndex_of_none (fun movie => movie.id.strictEq id) movies h
  simp only [deleteMovieById, hidx, if_true]

theorem patchMovieById_of_split (validatePartialMovie : PartialValidator)
    (before : List Movie) (m : Movie) (after : List Movie) (id : String) (body : Json)
    (data : PartialMovieData) (hvalid : validatePartialMovie body = .ok data)
    (hbefore : ∀ x ∈ before, x.id.strictEq id = false) (hm : m.id.strictEq id = true) :
    patchMovieById validatePartialMovie (before ++ m :: after) id body
      = (before ++ spread m data :: after, ⟨200, .movie (spread m data)⟩) := by
  have hidx := findIndex_of_split (fun movie => movie.id.strictEq id) before m after hbefore hm
  have hne : ¬ ((before.length : Int) = -1) := by omega
  simp only [patchMovieById, hvalid, hidx, hne, if_false, Int.toNat_ofNat,
    getElem?_of_split, assignIndex_of_split]

theorem patchMovieById_of_none (validatePartialMovie : PartialValidator)
    (movies : List Movie) (id : String) (body : Json)
    (data : PartialMovieData) (hvalid : validatePartialMovie body = .ok data)
    (h : ∀ x ∈ movies, x.id.strictEq id = false) :
    patchMovieById validatePartialMovie movies id body
      = (movies, ⟨404, .message "Movie not found..."⟩) := by
  have hidx := findIndex_of_none (fun movie => movie.id.strictEq id) movies h
  simp only [patchMovieById, hvalid, hidx, if_true]

theorem patchMovieById_of_error (validatePartialMovie : PartialValidator)
    (movies : List Movie) (id : String) (body : Json) (e : Json)
    (hinvalid : validatePartialMovie body = .error e) :
    patchMovieById validatePartialMovie movies id body = (movies, ⟨400, .error e⟩) := by
  simp only [patchMovieById, hinvalid]

theorem not_exists_match {α : Type} (p : α → Bool) (xs : List α)
    (h : ¬ ∃ x ∈ xs, p x = true) : ∀ x ∈ xs, p x = false := by
  intro x hx
  cases hp : p x with
  | false => rfl
  | true => exact absurd ⟨x, hx, hp⟩ h

/-- The patch handler answers 400, 404 or 200: the branch of the model for an
index outside the array is never taken. -/
theorem patchMovieById_status (validatePartialMovie : PartialValidator)
    (movies : List Movie) (id : String) (body : Json) :
    (patchMovieById validatePartialMovie movies id body).2.status = 400
    ∨ (patchMovieById validatePartialMovie movies id body).2.status = 404
    ∨ (patchMovieById validatePartialMovie movies id body).2.status = 200 := by
  cases hv : validatePartialMovie body with
  | error e =>
    left
    rw [patchMovieById_of_error validatePartialMovie movies id body e hv]
  | ok data =>
    by_cases hmatch : ∃ x ∈ movies, (fun movie : Movie => movie.id.strictEq id) x = true
    · obtain ⟨before, m, after, hsplit, hbefore, hm⟩ :=
        exists_first_split (fun movie : Movie => movie.id.strictEq id) movies hmatch
      subst hsplit
      right; right
      rw [patchMovieById_of_split validatePartialMovie before m after id body data hv hbefore hm]
    · right; left
      rw [patchMovieById_of_none validatePartialMovie movies id body data hv
        (not_exists_match _ movies hmatch)]

/-- The patch handler leaves the identifier at every position as it was. -/
theorem patchMovieById_ids (validatePartialMovie : PartialValidator)
    (movies : List Movie) (id : String) (body : Json) :
    (patchMovieById validatePartialMovie movies id body).1.map (fun movie => movie.id)
      = movies.map (fun movie => movie.id) := by
  cases hv : validatePartialMovie body with
  | error e =>
    rw [patchMovieById_of_error validatePartialMovie movies id body e hv]
  | ok data =>
    by_cases hmatch : ∃ x ∈ movies, (fun movie : Movie => movie.id.strictEq id) x = true
    · obtain ⟨before, m, after, hsplit, hbefore, hm⟩ :=
        exists_first_split (fun movie : Movie => movie.id.strictEq id) movies hmatch
      subst hsplit
      rw [patchMovieById_of_split validatePartialMovie before m after id body data hv hbefore hm]
      simp [spread]
    · rw [patchMovieById_of_none validatePartialMovie movies id body data hv
        (not_exists_match _ movies hmatch)]

/-- The delete handler leaves a sublist of the store, so the records that
survive keep their identifiers and identifiers that were distinct stay so. -/
theorem deleteMovieById_sublist (movies : List Movie) (id : String) :
    (deleteMovieById movies id).1.Sublist movies := by
  by_cases hmatch : ∃ x ∈ movies, (fun movie : Movie => movie.id.strictEq id) x = true
  · obtain ⟨before, m, after, hsplit, hbefore, hm⟩ :=
      exists_first_split (fun movie : Movie => movie.id.strictEq id) movies hmatch
    subst hsplit
    rw [deleteMovieById_of_split before m after id hbefore hm]
    exact (List.sublist_cons_self m after).append_left before
  · rw [deleteMovieById_of_none movies id (not_exists_match _ movies hmatch)]

theorem deleteMovieById_nodup (movies : List Movie) (id : String)
    (h : (movies.map (fun movie => movie.id)).Nodup) :
    ((deleteMovieById movies id).1.map (fun movie => movie.id)).Nodup :=
  ((deleteMovieById_sublist movies id).map (fun movie => movie.id)).nodup h

theorem strictEq_eq_true (a : Ident) (id : String) (h : a.strictEq id = true) :
    a = Ident.str id := by
  cases a with
  | str s =>
    have hs : s = id := by simpa [Ident.strictEq] using h
    rw [hs]
  | randomUUID => cases h

/-! ## Lemmas on the list handler -/

theorem filterThrowing_of_ok {α : Type} (p : α → Except JsError Bool) (q : α → Bool)
    (xs : List α) (h : ∀ x, p x = .ok (q x)) : filterThrowing p xs = .ok (xs.filter q) := by
  induction xs with
  | nil => rfl
  | cons x xs ih =>
    simp only [filterThrowing, h x, ih, List.filter_cons]

theorem someThrowing_of_ok {α : Type} (p : α → Except JsError Bool) (q : α → Bool)
    (xs : List α) (h : ∀ x, p x = .ok (q x)) : someThrowing p xs = .ok (xs.any q) := by
  induction xs with
  | nil => rfl
  | cons x xs ih =>
    simp only [someThrowing, h x, List.any_cons]
    cases q x
    · simpa using ih
    · rfl

theorem titleMatches_str (toLowerCase : String → String) (t : String) (movie : Movie) :
    titleMatches toLowerCase (some (.str t)) movie
      = .ok (decide ((toLowerCase t).data <:+: (toLowerCase movie.title).data)) := by
  simp only [titleMatches, callToLowerCase, includes_eq_decide]

theorem genreMatches_str (toLowerCase : String → String) (g : String) (movie : Movie) :
    genreMatches toLowerCase (some (.str g)) movie
      = .ok (decide (∃ x ∈ movie.genre, toLowerCase x = toLowerCase g)) := by
  unfold genreMatches
  rw [someThrowing_of_ok _ (fun x => toLowerCase x == toLowerCase g) movie.genre
    (fun x => by simp only [callToLowerCase])]
  congr 1
  rw [Bool.eq_iff_iff, List.any_eq_true, decide_eq_true_iff]
  simp

/-- With a `genre` that is an array or an object, the callback of `some` throws
on the first genre element it is given. -/
theorem genreMatches_structured (toLowerCase : String → String) (movie : Movie) :
    genreMatches toLowerCase (some .structured) movie
      = match movie.genre with
        | [] => .ok false
        | _ :: _ => .error (.typeError "genre.toLowerCase is not a function") := by
  unfold genreMatches
  cases movie.genre with
  | nil => rfl
  | cons g gs => rfl

theorem filter_genre_structured_of_empty (toLowerCase : String → String)
    (movies : List Movie) (h : ∀ m ∈ movies, m.genre = []) :
    filterThrowing (genreMatches toLowerCase (some .structured)) movies = .ok [] := by
  induction movies with
  | nil => rfl
  | cons m ms ih =>
    have hm : m.genre = [] := h m (List.mem_cons_self m ms)
    have hcall : genreMatches toLowerCase (some .structured) m = .ok false := by
      rw [genreMatches_structured, hm]
    simp only [filterThrowing, hcall, ih (fun x hx => h x (List.mem_cons_of_mem m hx))]
    rfl

theorem filter_genre_structured_of_nonempty (toLowerCase : String → String)
    (movies : List Movie) (h : ∃ m ∈ movies, m.genre ≠ []) :
    filterThrowing (genreMatches toLowerCase (some .structured)) movies
      = .error (.typeError "genre.toLowerCase is not a function") := by
  induction movies with
  | nil => obtain ⟨m, hm, _⟩ := h; cases hm
  | cons m ms ih =>
    cases hg : m.genre with
    | cons g gs =>
      have hcall : genreMatches toLowerCase (some .structured) m
          = .error (.typeError "genre.toLowerCase is not a function") := by
        rw [genreMatches_structured, hg]
      simp only [filterThrowing, hcall]
    | nil =>
      have hcall : genreMatches toLowerCase (some .structured) m = .ok false := by
        rw [genreMatches_structured, hg]
      have hrest : ∃ x ∈ ms, x.genre ≠ [] := by
        obtain ⟨x, hx, hne⟩ := h
        rcases List.mem_cons.mp hx with rfl | hmem
        · exact absurd hg hne
        · exact ⟨x, hmem, hne⟩
      simp only [filterThrowing, hcall, ih hrest]

/-- A title that is a non-empty string: the title filter answers. -/
theorem getMovies_of_title (toLowerCase : String → String) (movies : List Movie)
    (t : String) (genre : Option QueryValue) (ht : t ≠ "") :
    getMovies toLowerCase movies (some (.str t)) genre
      = ⟨200, .movieList (movies.filter (fun movie =>
          decide ((toLowerCase t).data <:+: (toLowerCase movie.title).data)))⟩ := by
  have htruthy : truthyQuery (some (.str t)) = true := by simpa [truthyQuery] using ht
  simp only [getMovies, getMoviesHandler, htruthy, if_true,
    filterThrowing_of_ok _ _ movies (titleMatches_str toLowerCase t), truthyArray,
    errorMiddleware]

/-- A title that is an array or an object: the filter callback throws on the
first record, so only the empty store gets an answer from the handler. -/
theorem getMovies_of_structured_title (toLowerCase : String → String)
    (movies : List Movie) (genre : Option QueryValue) :
    getMovies toLowerCase movies (some .structured) genre
      = match movies with
        | [] => ⟨200, .movieList []⟩
        | _ :: _ => ⟨500, .text "Something broke!"⟩ := by
  cases movies with
  | nil => rfl
  | cons m ms => rfl

/-- A title that is absent or empty: the answer is that of lines 64-71. -/
theorem getMovies_of_no_title (toLowerCase : String → String) (movies : List Movie)
    (title genre : Option QueryValue) (ht : title = none ∨ title = some (.str "")) :
    getMovies toLowerCase movies title genre
      = errorMiddleware (genreBranch toLowerCase movies genre) := by
  have htitle : truthyQuery title = false := by
    rcases ht with rfl | rfl <;> rfl
  simp only [getMovies, getMoviesHandler, htitle, Bool.false_eq_true, if_false]

theorem genreBranch_of_genre (toLowerCase : String → String) (movies : List Movie)
    (g : String) (hg : g ≠ "") :
    genreBranch toLowerCase movies (some (.str g))
      = .ok ⟨200, .movieList (movies.filter (fun movie =>
          decide (∃ x ∈ movie.genre, toLowerCase x = toLowerCase g)))⟩ := by
  have htruthy : truthyQuery (some (.str g)) = true := by simpa [truthyQuery] using hg
  simp only [genreBranch, htruthy, if_true,
    filterThrowing_of_ok _ _ movies (genreMatches_str toLowerCase g), truthyArray]

theorem genreBranch_of_no_genre (toLowerCase : String → String) (movies : List Movie)
    (genre : Option QueryValue) (hg : genre = none ∨ genre = some (.str "")) :
    genreBranch toLowerCase movies genre = .ok ⟨200, .movieList movies⟩ := by
  have hgenre : truthyQuery genre = false := by
    rcases hg with rfl | rfl <;> rfl
  simp only [genreBranch, hgenre, Bool.false_eq_true, if_false]

theorem genreBranch_of_structured_empty (toLowerCase : String → String)
    (movies : List Movie) (h : ∀ m ∈ movies, m.genre = []) :
    genreBranch toLowerCase movies (some .structured) = .ok ⟨200, .movieList []⟩ := by
  have htruthy : truthyQuery (some .structured) = true := rfl
  simp only [genreBranch, htruthy, if_true,
    filter_genre_structured_of_empty toLowerCase movies h, truthyArray]

theorem genreBranch_of_structured_nonempty (toLowerCase : String → String)
    (movies : List Movie) (h : ∃ m ∈ movies, m.genre ≠ []) :
    genreBranch toLowerCase movies (some .structured)
      = .error (.typeError "genre.toLowerCase is not a function") := by
  have htruthy : truthyQuery (some .structured) = true := rfl
  simp only [genreBranch, htruthy, if_true,
    filter_genre_structured_of_nonempty toLowerCase movies h]

/-! ## Cross-origin policy -/

/-- C9, as stated, fails: an `Origin` header that is present with the empty
string as value is no member of the allow-list, and the callback allows it. -/
theorem cors_allows_empty_origin :
    ACCEPTED_ORIGINS.contains "" = false ∧ corsOrigin (some "") = .allow := by
  decide

/-- C9, amended: the callback allows an absent origin, an empty origin and
every member of the allow-list (the four listed origins), and rejects every
other origin with the CORS error, `http://evil.example` among them. -/
theorem cors_decision :
    ACCEPTED_ORIGINS = ["http://localhost:8080", "http://localhost:3000",
        "https://movies.com", "https://midu.dev"]
    ∧ corsOrigin none = .allow
    ∧ corsOrigin (some "") = .allow
    ∧ (∀ o, o ∈ ACCEPTED_ORIGINS → corsOrigin (some o) = .allow)
    ∧ (∀ o, o ≠ "" → o ∉ ACCEPTED_ORIGINS →
        corsOrigin (some o) = .reject "Not allowed by CORS...")
    ∧ corsOrigin (some "http://evil.example") = .reject "Not allowed by CORS..." := by
  refine ⟨rfl, by decide, by decide, ?_, ?_, by decide⟩
  · intro o ho
    have h : originAccepted (some o) = true := by
      simpa [originAccepted] using ho
    simp [corsOrigin, h]
  · intro o hne hnot
    have h : originAccepted (some o) = false := by
      simpa [originAccepted] using hnot
    have ht : truthy (some o) = true := by
      simpa [truthy] using hne
    simp [corsOrigin, h, ht]

/-- The amended C9 at a listed origin and at a foreign origin. -/
theorem cors_decision_witness :
    corsOrigin (some "https://midu.dev") = .allow
    ∧ corsOrigin (some "http://elsewhere.example") = .reject "Not allowed by CORS..." :=
  ⟨cors_decision.2.2.2.1 "https://midu.dev" (by decide),
   cors_decision.2.2.2.2.1 "http://elsewhere.example" (by decide) (by decide)⟩

/-! ## Create -/

/-- C4: when the full validator reports an error for the body, `POST /movies`
answers 422 with the validator's errors and the store is the same list as
before, hence of the same length, with the same records in the same order. -/
theorem create_invalid_body (validateMovie : Validator) (movies : List Movie)
    (body e : Json) (hinvalid : validateMovie body = .error e) :
    postMovies validateMovie movies body = (movies, ⟨422, .error e⟩)
    ∧ (postMovies validateMovie movies body).1.length = movies.length := by
  have h : postMovies validateMovie movies body = (movies, ⟨422, .error e⟩) := by
    simp only [postMovies, hinvalid]
  exact ⟨h, by rw [h]⟩

/-- C4 on a body without a title: the error names `title` and the store stays. -/
theorem create_invalid_body_witness :
    validateMovie exampleSchema untitledBody = .error (.arr [issueMissing "title"])
    ∧ postMovies (validateMovie exampleSchema) seedStore untitledBody
        = (seedStore, ⟨422, .error (.arr [issueMissing "title"])⟩)
    ∧ (postMovies (validateMovie exampleSchema) seedStore untitledBody).1.length
        = seedStore.length :=
  ⟨rfl, create_invalid_body (validateMovie exampleSchema) seedStore untitledBody
    (.arr [issueMissing "title"]) rfl⟩

/-! ## Patch -/

/-- C2, as stated, fails: for an id that matches no record and a body that
partial validation rejects, `PATCH /movies/:id` answers 400, not 404. -/
theorem patch_unknown_id_invalid_body_is_400 :
    seedStore.all (fun movie => !movie.id.strictEq "no-such-id") = true
    ∧ (patchMovieById (validatePartialMovie exampleSchema) seedStore "no-such-id"
        badYearBody).2.status = 400 :=
  ⟨by decide, rfl⟩

/-- C2, amended: for an id that matches no record, `PATCH /movies/:id` answers
404 when partial validation accepts the body and 400 with the validator's
errors when it rejects the body; the store is unchanged in both cases. -/
theorem patch_unknown_id (validatePartialMovie : PartialValidator) (movies : List Movie)
    (id : String) (body : Json) (hnone : ∀ m ∈ movies, m.id.strictEq id = false) :
    (∀ data, validatePartialMovie body = .ok data →
        patchMovieById validatePartialMovie movies id body
          = (movies, ⟨404, .message "Movie not found..."⟩))
    ∧ (∀ e, validatePartialMovie body = .error e →
        patchMovieById validatePartialMovie movies id body = (movies, ⟨400, .error e⟩)) :=
  ⟨fun data hvalid => patchMovieById_of_none validatePartialMovie movies id body data hvalid hnone,
   fun e hinvalid => patchMovieById_of_error validatePartialMovie movies id body e hinvalid⟩

/-- The amended C2 on the two-record store, with an accepted body and with a
rejected one. -/
theorem patch_unknown_id_witness :
    patchMovieById (validatePartialMovie exampleSchema) seedStore "no-such-id" (.obj [])
      = (seedStore, ⟨404, .message "Movie not found..."⟩)
    ∧ patchMovieById (validatePartialMovie exampleSchema) seedStore "no-such-id" badYearBody
      = (seedStore, ⟨400, .error (.arr [issue "year" "integer in range" (.str "abc")])⟩) :=
  ⟨(patch_unknown_id (validatePartialMovie exampleSchema) seedStore "no-such-id" (.obj [])
      (by decide)).1 {} rfl,
   (patch_unknown_id (validatePartialMovie exampleSchema) seedStore "no-such-id" badYearBody
      (by decide)).2 (.arr [issue "year" "integer in range" (.str "abc")]) rfl⟩

/-- C6: when partial validation of the body yields the empty result object, as
it does for `{}`, and the id matches a record, `PATCH /movies/:id` answers 200
with the first record of that id, as it was, and the store is unchanged. -/
theorem patch_empty_object (validatePartialMovie : PartialValidator) (movies : List Movie)
    (id : String) (body : Json) (existing : Movie)
    (hempty : validatePartialMovie body = .ok {})
    (hfound : movies.find? (fun movie => movie.id.strictEq id) = some existing) :
    patchMovieById validatePartialMovie movies id body = (movies, ⟨200, .movie existing⟩) := by
  have hp := List.find?_some hfound
  have hex : ∃ x ∈ movies, (fun movie : Movie => movie.id.strictEq id) x = true :=
    ⟨existing, List.mem_of_find?_eq_some hfound, hp⟩
  obtain ⟨before, m, after, hsplit, hbefore, hm⟩ :=
    exists_first_split (fun movie : Movie => movie.id.strictEq id) movies hex
  subst hsplit
  rw [find?_of_split (fun movie : Movie => movie.id.strictEq id) before m after hbefore hm]
    at hfound
  have hme : m = existing := Option.some.inj hfound
  subst hme
  rw [patchMovieById_of_split validatePartialMovie before m after id body {} hempty hbefore hm]
  have hsame : spread m {} = m := rfl
  rw [hsame]

/-- C6 on the two-record store: the body `{}` is accepted with an empty result,
the second record comes back as it was and the store is unchanged. -/
theorem patch_empty_object_witness :
    validatePartialMovie exampleSchema (.obj []) = .ok {}
    ∧ patchMovieById (validatePartialMovie exampleSchema) seedStore "m2" (.obj [])
        = (seedStore, ⟨200, .movie inception⟩) :=
  ⟨rfl, patch_empty_object (validatePartialMovie exampleSchema) seedStore "m2" (.obj [])
    inception rfl rfl⟩

/-- C5: for an id that matches a record and a body that partial validation
accepts with result `d`, `PATCH /movies/:id` answers 200 with a merged record:
each field has the value of `d` when `d` has the field and the value of the
existing record otherwise, and the identifier is the existing one. The store
keeps its length, holds the merged record at the position `i` of the first
record of that id, and is unchanged at every other position. -/
theorem patch_existing (validatePartialMovie : PartialValidator) (movies : List Movie)
    (id : String) (body : Json) (d : PartialMovieData)
    (hvalid : validatePartialMovie body = .ok d)
    (hmatch : ∃ m ∈ movies, m.id.strictEq id = true) :
    ∃ (i : Nat) (existing merged : Movie),
      movies[i]? = some existing
      ∧ existing.id.strictEq id = true
      ∧ (∀ j m, j < i → movies[j]? = some m → m.id.strictEq id = false)
      ∧ (patchMovieById validatePartialMovie movies id body).2 = ⟨200, .movie merged⟩
      ∧ merged.id = existing.id
      ∧ mergedField d.title existing.title merged.title
      ∧ mergedField d.year existing.year merged.year
      ∧ mergedField d.director existing.director merged.director
      ∧ mergedField d.duration existing.duration merged.duration
      ∧ mergedOptionalField d.rate existing.rate merged.rate
      ∧ mergedOptionalField d.poster existing.poster merged.poster
      ∧ mergedField d.genre existing.genre merged.genre
      ∧ (patchMovieById validatePartialMovie movies id body).1.length = movies.length
      ∧ (patchMovieById validatePartialMovie movies id body).1[i]? = some merged
      ∧ (∀ j, j ≠ i →
          (patchMovieById validatePartialMovie movies id body).1[j]? = movies[j]?) := by
  obtain ⟨before, m, after, hsplit, hbefore, hm⟩ :=
    exists_first_split (fun movie : Movie => movie.id.strictEq id) movies hmatch
  subst hsplit
  rw [patchMovieById_of_split validatePartialMovie before m after id body d hvalid hbefore hm]
  refine ⟨before.length, m, spread m d, getElem?_of_split before m after, hm, ?_, rfl, rfl,
    ?_, ?_, ?_, ?_, ?_, ?_, ?_, ?_, getElem?_of_split before (spread m d) after, ?_⟩
  · intro j x hj hx
    rw [List.getElem?_append_left hj] at hx
    exact hbefore x (List.getElem?_mem hx)
  · constructor
    · intro v hv; simp [spread, hv]
    · intro hv; simp [spread, hv]
  · constructor
    · intro v hv; simp [spread, hv]
    · intro hv; simp [spread, hv]
  · constructor
    · intro v hv; simp [spread, hv]
    · intro hv; simp [spread, hv]
  · constructor
    · intro v hv; simp [spread, hv]
    · intro hv; simp [spread, hv]
  · constructor
    · intro v hv; simp [spread, hv, Option.orElse]
    · intro hv; simp [spread, hv, Option.orElse]
  · constructor
    · intro v hv; simp [spread, hv, Option.orElse]
    · intro hv; simp [spread, hv, Option.orElse]
  · constructor
    · intro v hv; simp [spread, hv]
    · intro hv; simp [spread, hv]
  · simp
  · intro j hj
    show (before ++ spread m d :: after)[j]? = (before ++ m :: after)[j]?
    rw [← assignIndex_of_split before m (spread m d) after]
    simp only [assignIndex, Int.toNat_ofNat]
    exact List.getElem?_set_ne (Ne.symm hj)

/-- C5 on the two-record store: patching the year of the second record. -/
theorem patch_existing_witness :
    ∃ (i : Nat) (existing merged : Movie),
      seedStore[i]? = some existing
      ∧ existing.id.strictEq "m2" = true
      ∧ (∀ j m, j < i → seedStore[j]? = some m → m.id.strictEq "m2" = false)
      ∧ (patchMovieById (validatePartialMovie exampleSchema) seedStore "m2"
          (.obj [("year", .num 2011)])).2 = ⟨200, .movie merged⟩
      ∧ merged.id = existing.id
      ∧ mergedField none existing.title merged.title
      ∧ mergedField (some 2011) existing.year merged.year
      ∧ mergedField none existing.director merged.director
      ∧ mergedField none existing.duration merged.duration
      ∧ mergedOptionalField none existing.rate merged.rate
      ∧ mergedOptionalField none existing.poster merged.poster
      ∧ mergedField none existing.genre merged.genre
      ∧ (patchMovieById (validatePartialMovie exampleSchema) seedStore "m2"
          (.obj [("year", .num 2011)])).1.length = seedStore.length
      ∧ (patchMovieById (validatePartialMovie exampleSchema) seedStore "m2"
          (.obj [("year", .num 2011)])).1[i]? = some merged
      ∧ (∀ j, j ≠ i →
          (patchMovieById (validatePartialMovie exampleSchema) seedStore "m2"
            (.obj [("year", .num 2011)])).1[j]? = seedStore[j]?) :=
  patch_existing (validatePartialMovie exampleSchema) seedStore "m2"
    (.obj [("year", .num 2011)]) { year := some 2011 } rfl
    ⟨inception, List.mem_cons_of_mem matrix (List.mem_cons_self inception []), rfl⟩

/-! ## Delete -/

/-- C3: in a store whose identifiers are distinct, for an id that matches some
record the delete handler answers 204 and the resulting store is the old store
without the record of that id: one record shorter, the others in their order;
a find-by-id for that id on the resulting store answers 404 not found. -/
theorem delete_existing (movies : List Movie) (id : String)
    (hunique : (movies.map (fun movie => movie.id)).Nodup)
    (hmatch : ∃ m ∈ movies, m.id.strictEq id = true) :
    ∃ (before : List Movie) (removed : Movie) (after : List Movie),
      movies = before ++ removed :: after
      ∧ (∀ x ∈ before, x.id.strictEq id = false)
      ∧ removed.id.strictEq id = true
      ∧ deleteMovieById movies id = (before ++ after, ⟨204, .message "Movie deleted"⟩)
      ∧ (deleteMovieById movies id).1.length + 1 = movies.length
      ∧ (deleteMovieById movies id).1.Sublist movies
      ∧ getMovieById (deleteMovieById movies id).1 id
          = ⟨404, .message "Movie not found..."⟩ := by
  obtain ⟨before, m, after, hsplit, hbefore, hm⟩ :=
    exists_first_split (fun movie : Movie => movie.id.strictEq id) movies hmatch
  subst hsplit
  rw [deleteMovieById_of_split before m after id hbefore hm]
  refine ⟨before, m, after, rfl, hbefore, hm, rfl, ?_, ?_, ?_⟩
  · simp only [List.length_append, List.length_cons]
    omega
  · exact (List.sublist_cons_self m after).append_left before
  · apply getMovieById_of_none
    have htail : ((m :: after).map (fun movie => movie.id)).Nodup :=
      ((List.sublist_append_right before (m :: after)).map (fun movie => movie.id)).nodup
        hunique
    have hnot : m.id ∉ after.map (fun movie => movie.id) := by
      rw [List.map_cons] at htail
      exact (List.nodup_cons.mp htail).1
    intro x hx
    rcases List.mem_append.mp hx with hxb | hxa
    · exact hbefore x hxb
    · cases hpx : x.id.strictEq id with
      | false => rfl
      | true =>
        exfalso
        apply hnot
        rw [strictEq_eq_true m.id id hm, ← strictEq_eq_true x.id id hpx]
        exact List.mem_map_of_mem (fun movie => movie.id) hxa

/-- C3 on the two-record store: deleting `m1` leaves the other record, and `m1`
is not found afterwards. -/
theorem delete_existing_witness :
    deleteMovieById seedStore "m1" = ([inception], ⟨204, .message "Movie deleted"⟩)
    ∧ getMovieById (deleteMovieById seedStore "m1").1 "m1"
        = ⟨404, .message "Movie not found..."⟩ := by
  obtain ⟨before, removed, after, hsplit, hbefore, hremoved, hdel, _, _, hfind⟩ :=
    delete_existing seedStore "m1" (by decide)
      ⟨matrix, List.mem_cons_self matrix [inception], rfl⟩
  exact ⟨rfl, hfind⟩

/-! ## List -/

/-- C7, as stated, fails on the empty title: with `title=` and
`genre=adventure` the answer is the genre filter's result, the second record
alone, while the lower-cased title of both records contains the empty string. -/
theorem list_empty_title_with_genre :
    getMovies asciiLower seedStore (some (.str "")) (some (.str "adventure"))
      = ⟨200, .movieList [inception]⟩
    ∧ seedStore.filter (fun movie => includes (asciiLower movie.title) (asciiLower ""))
        = [matrix, inception] :=
  ⟨rfl, rfl⟩

/-- C7, amended: for a title `t` that is a non-empty string, `GET /movies`
answers 200 with exactly the records of the store whose lower-cased title has
the lower-cased `t` as a substring, in store order, whatever `genre` is, and
with the empty array when there is none. For the empty string the title filter
is skipped: the answer is that of the request without a title, the full store
when `genre` is absent or empty. For a title that is an array or an object the
answer is 500 on a store that has a record and the empty array on the empty
store. -/
theorem list_by_title (toLowerCase : String → String) (movies : List Movie) :
    (∀ t genre, t ≠ "" →
        getMovies toLowerCase movies (some (.str t)) genre
          = ⟨200, .movieList (movies.filter (fun movie =>
              decide ((toLowerCase t).data <:+: (toLowerCase movie.title).data)))⟩)
    ∧ (∀ t, (movies.filter (fun movie =>
          decide ((toLowerCase t).data <:+: (toLowerCase movie.title).data))).Sublist movies)
    ∧ (∀ t genre, t ≠ "" →
        (∀ m ∈ movies, ¬ (toLowerCase t).data <:+: (toLowerCase m.title).data) →
        getMovies toLowerCase movies (some (.str t)) genre = ⟨200, .movieList []⟩)
    ∧ (∀ genre, getMovies toLowerCase movies (some (.str "")) genre
        = getMovies toLowerCase movies none genre)
    ∧ (∀ genre, genre = none ∨ genre = some (.str "") →
        getMovies toLowerCase movies (some (.str "")) genre = ⟨200, .movieList movies⟩)
    ∧ (∀ genre, movies ≠ [] →
        getMovies toLowerCase movies (some .structured) genre
          = ⟨500, .text "Something broke!"⟩)
    ∧ (∀ genre, movies = [] →
        getMovies toLowerCase movies (some .structured) genre = ⟨200, .movieList []⟩) := by
  refine ⟨fun t genre ht => getMovies_of_title toLowerCase movies t genre ht,
    fun t => List.filter_sublist _, ?_, ?_, ?_, ?_, ?_⟩
  · intro t genre ht hnone
    rw [getMovies_of_title toLowerCase movies t genre ht]
    have hempty : movies.filter (fun movie =>
        decide ((toLowerCase t).data <:+: (toLowerCase movie.title).data)) = [] := by
      rw [List.filter_eq_nil_iff]
      intro a ha
      simpa using hnone a ha
    rw [hempty]
  · intro genre
    rw [getMovies_of_no_title toLowerCase movies (some (.str "")) genre (Or.inr rfl),
      getMovies_of_no_title toLowerCase movies none genre (Or.inl rfl)]
  · intro genre hg
    rw [getMovies_of_no_title toLowerCase movies (some (.str "")) genre (Or.inr rfl),
      genreBranch_of_no_genre toLowerCase movies genre hg]
    rfl
  · intro genre hne
    rw [getMovies_of_structured_title]
    cases movies with
    | nil => exact absurd rfl hne
    | cons m ms => rfl
  · intro genre hnil
    rw [getMovies_of_structured_title, hnil]

/-- The amended C7 on the store of "The Matrix" and "Inception": `title=matrix`
yields the first record alone, also when a genre is given, `title=zzz` the
empty array, and a repeated title parameter the answer 500. -/
theorem list_by_title_witness :
    getMovies asciiLower seedStore (some (.str "matrix")) none = ⟨200, .movieList [matrix]⟩
    ∧ getMovies asciiLower seedStore (some (.str "matrix")) (some (.str "Adventure"))
        = ⟨200, .movieList [matrix]⟩
    ∧ getMovies asciiLower seedStore (some (.str "zzz")) none = ⟨200, .movieList []⟩
    ∧ getMovies asciiLower seedStore (some .structured) none
        = ⟨500, .text "Something broke!"⟩ :=
  ⟨((list_by_title asciiLower seedStore).1 "matrix" none (by decide)).trans rfl,
   ((list_by_title asciiLower seedStore).1 "matrix" (some (.str "Adventure"))
      (by decide)).trans rfl,
   (list_by_title asciiLower seedStore).2.2.1 "zzz" none (by decide) (by
      intro m hm
      simp only [seedStore, List.mem_cons, List.mem_singleton, List.not_mem_nil, or_false] at hm
      rcases hm with rfl | rfl <;> decide),
   (list_by_title asciiLower seedStore).2.2.2.2.2.1 none (by simp [seedStore])⟩

/-- C8, as stated, fails twice on the empty string. With `title=` (present,
empty) and `genre=sci-fi` the answer is the genre filter's result, one record,
while the title filter keeps both records; with `genre=` alone the answer is
the full store, while no record has a genre equal to the empty string. -/
theorem list_empty_title_or_genre :
    getMovies asciiLower seedStore (some (.str "")) (some (.str "sci-fi"))
      = ⟨200, .movieList [matrix]⟩
    ∧ seedStore.filter (fun movie => includes (asciiLower movie.title) (asciiLower ""))
        = [matrix, inception]
    ∧ getMovies asciiLower seedStore none (some (.str ""))
        = ⟨200, .movieList [matrix, inception]⟩
    ∧ seedStore.filter (fun movie =>
        movie.genre.any (fun g => asciiLower g == asciiLower "")) = [] :=
  ⟨rfl, rfl, rfl, rfl⟩

/-- C8, amended: a title that is a non-empty string wins, the answer is the
title filter's result whatever `genre` is; a title that is an array or an
object gets 500 on a store that has a record and the empty array on the empty
store. With the title absent or empty: a genre that is a non-empty string gets
the records having some genre element equal to it once both are lower-cased; a
genre that is an array or an object gets 500 when some record has a genre
element and the empty array otherwise; a genre that is absent or empty gets the
full store in its order. -/
theorem list_precedence (toLowerCase : String → String) (movies : List Movie)
    (title genre : Option QueryValue) :
    (∀ t, title = some (.str t) → t ≠ "" →
        getMovies toLowerCase movies title genre
          = ⟨200, .movieList (movies.filter (fun movie =>
              decide ((toLowerCase t).data <:+: (toLowerCase movie.title).data)))⟩)
    ∧ (title = some .structured → movies ≠ [] →
        getMovies toLowerCase movies title genre = ⟨500, .text "Something broke!"⟩)
    ∧ (title = some .structured → movies = [] →
        getMovies toLowerCase movies title genre = ⟨200, .movieList []⟩)
    ∧ (title = none ∨ title = some (.str "") → ∀ g, genre = some (.str g) → g ≠ "" →
        getMovies toLowerCase movies title genre
          = ⟨200, .movieList (movies.filter (fun movie =>
              decide (∃ x ∈ movie.genre, toLowerCase x = toLowerCase g)))⟩)
    ∧ (title = none ∨ title = some (.str "") → genre = some .structured →
        (∃ m ∈ movies, m.genre ≠ []) →
        getMovies toLowerCase movies title genre = ⟨500, .text "Something broke!"⟩)
    ∧ (title = none ∨ title = some (.str "") → genre = some .structured →
        (∀ m ∈ movies, m.genre = []) →
        getMovies toLowerCase movies title genre = ⟨200, .movieList []⟩)
    ∧ (title = none ∨ title = some (.str "") → genre = none ∨ genre = some (.str "") →
        getMovies toLowerCase movies title genre = ⟨200, .movieList movies⟩) := by
  refine ⟨?_, ?_, ?_, ?_, ?_, ?_, ?_⟩
  · intro t ht hne
    subst ht
    exact getMovies_of_title toLowerCase movies t genre hne
  · intro ht hne
    subst ht
    rw [getMovies_of_structured_title]
    cases movies with
    | nil => exact absurd rfl hne
    | cons m ms => rfl
  · intro ht hnil
    subst ht
    rw [getMovies_of_structured_title, hnil]
  · intro ht g hg hne
    subst hg
    rw [getMovies_of_no_title toLowerCase movies title _ ht,
      genreBranch_of_genre toLowerCase movies g hne]
    rfl
  · intro ht hg hsome
    subst hg
    rw [getMovies_of_no_title toLowerCase movies title _ ht,
      genreBranch_of_structured_nonempty toLowerCase movies hsome]
    rfl
  · intro ht hg hall
    subst hg
    rw [getMovies_of_no_title toLowerCase movies title _ ht,
      genreBranch_of_structured_empty toLowerCase movies hall]
    rfl
  · intro ht hg
    rw [getMovies_of_no_title toLowerCase movies title genre ht,
      genreBranch_of_no_genre toLowerCase movies genre hg]
    rfl

/-- The amended C8 on the two-record store: a title given with a genre, a
genre given alone, neither given, and a repeated genre parameter. -/
theorem list_precedence_witness :
    getMovies asciiLower seedStore (some (.str "INCEPT")) (some (.str "Sci-Fi"))
      = ⟨200, .movieList [inception]⟩
    ∧ getMovies asciiLower seedStore none (some (.str "SCI-FI")) = ⟨200, .movieList [matrix]⟩
    ∧ getMovies asciiLower seedStore none none = ⟨200, .movieList seedStore⟩
    ∧ getMovies asciiLower seedStore none (some .structured)
        = ⟨500, .text "Something broke!"⟩ :=
  ⟨((list_precedence asciiLower seedStore (some (.str "INCEPT")) (some (.str "Sci-Fi"))).1
      "INCEPT" rfl (by decide)).trans rfl,
   ((list_precedence asciiLower seedStore none (some (.str "SCI-FI"))).2.2.2.1 (Or.inl rfl)
      "SCI-FI" rfl (by decide)).trans rfl,
   (list_precedence asciiLower seedStore none none).2.2.2.2.2.2 (Or.inl rfl) (Or.inl rfl),
   (list_precedence asciiLower seedStore none (some .structured)).2.2.2.2.1 (Or.inl rfl) rfl
      ⟨matrix, List.mem_cons_self matrix [inception], by decide⟩⟩

/-! ## Identifiers of created records -/

/-- C1 fails on the code: for a body that the full validator accepts, the
record that `POST /movies` appends has the validated fields, and its `id` is the
function `crypto.randomUUID` itself, not a string; no path id is strictly equal
to it, so a find-by-id answers as it did before the record was appended. -/
theorem create_stores_function_as_id (validateMovie : Validator) (movies : List Movie)
    (body : Json) (data : MovieData) (hvalid : validateMovie body = .ok data) :
    ∃ newMovie : Movie,
      postMovies validateMovie movies body = (movies ++ [newMovie], ⟨201, .movie newMovie⟩)
      ∧ newMovie.data = data
      ∧ newMovie.id = Ident.randomUUID
      ∧ newMovie.id.isString = false
      ∧ (∀ id, newMovie.id.strictEq id = false)
      ∧ (∀ id, getMovieById (movies ++ [newMovie]) id = getMovieById movies id) := by
  refine ⟨withId .randomUUID data, ?_, rfl, rfl, rfl, fun _ => rfl, ?_⟩
  · simp only [postMovies, hvalid]
  · intro id
    simp [getMovieById, List.find?_append, withId, Ident.strictEq]

/-- C1 at the empty store and a complete body: the created record cannot be
found again. -/
theorem create_stores_function_as_id_witness :
    validateMovie exampleSchema matrixBody = .ok matrixData
    ∧ ∃ newMovie : Movie,
      postMovies (validateMovie exampleSchema) [] matrixBody
        = ([] ++ [newMovie], ⟨201, .movie newMovie⟩)
      ∧ newMovie.data = matrixData
      ∧ newMovie.id = Ident.randomUUID
      ∧ newMovie.id.isString = false
      ∧ (∀ id, newMovie.id.strictEq id = false)
      ∧ (∀ id, getMovieById ([] ++ [newMovie]) id = getMovieById [] id) :=
  ⟨rfl, create_stores_function_as_id (validateMovie exampleSchema) [] matrixBody matrixData rfl⟩

/-- C10 fails on the code for the create handler: starting from a store whose
identifiers are distinct strings, one `POST /movies` with an accepted body
leaves the identifiers distinct, and a second one does not, since both created
records carry the function `crypto.randomUUID` as `id`. -/
theorem create_twice_shares_id (validateMovie : Validator) (movies : List Movie)
    (body : Json) (data : MovieData) (hvalid : validateMovie body = .ok data)
    (hdistinct : (movies.map (fun movie => movie.id)).Nodup)
    (hstrings : ∀ m ∈ movies, m.id.isString = true) :
    ((postMovies validateMovie movies body).1.map (fun movie => movie.id)).Nodup
    ∧ ¬ ((postMovies validateMovie (postMovies validateMovie movies body).1 body).1.map
          (fun movie => movie.id)).Nodup := by
  have hpost : ∀ store : List Movie, (postMovies validateMovie store body).1
      = store ++ [withId .randomUUID data] := by
    intro store
    simp only [postMovies, hvalid]
  rw [hpost, hpost]
  constructor
  · rw [List.map_append, List.nodup_append]
    refine ⟨hdistinct, by simp, ?_⟩
    intro a ha hb
    simp only [List.map_cons, List.map_nil, List.mem_singleton] at hb
    subst hb
    obtain ⟨m, hm, hid⟩ := List.mem_map.mp ha
    have := hstrings m hm
    rw [hid] at this
    cases this
  · intro hnodup
    simp only [List.map_append, List.map_cons, List.map_nil, List.append_assoc,
      List.singleton_append] at hnodup
    rw [List.nodup_append] at hnodup
    have hpair := hnodup.2.1
    simp at hpair

/-- C10 at the two-record store: after two accepted `POST /movies` the last two
records have the same `id`. -/
theorem create_twice_shares_id_witness :
    ((postMovies (validateMovie exampleSchema) seedStore matrixBody).1.map
        (fun movie => movie.id)).Nodup
    ∧ ¬ ((postMovies (validateMovie exampleSchema)
          (postMovies (validateMovie exampleSchema) seedStore matrixBody).1 matrixBody).1.map
            (fun movie => movie.id)).Nodup :=
  create_twice_shares_id (validateMovie exampleSchema) seedStore matrixBody matrixData rfl
    (by decide) (by decide)

end RestApi
